import Mathlib

/-!
Verification of the BananaSlice session-synchronization engine.

This file gives a shallow embedding of the multi-session ("tab") project
store (`src/store/toolStore.ts`, projects-store section), of the layer
reconciliation pass (`src/hooks/canvas/useLayerRenderer.ts`), and of the
layer model, together with theorems about the behaviour of these
operations.  JavaScript `Map`s are embedded as association lists with
Map-faithful get/set/delete, `string | null` values as `Option String`
(with explicit JS truthiness where the source tests truthiness), and the
zustand `set` calls of a single store action as an explicit list of
successive states so that ordering properties can be stated.
-/

namespace BananaSlice

/-! ## Layer data model -/

/-- Layer kinds (`base | shape | generated | imported` plus the generic
`layer` string used in tests is folded into `shape`). -/
inductive LayerType where
  | base
  | shape
  | generated
  | imported
deriving DecidableEq, Repr

/-- A 2D point of a polygon boundary. -/
structure Point2 where
  x : Int
  y : Int
deriving DecidableEq, Repr

/-- One entry of a document's layer stack, following the `Layer` type used
throughout the source. -/
structure Layer where
  id : String
  name : String
  type : LayerType
  imageData : String
  originalImageData : Option String := none
  visible : Bool := true
  opacity : Nat := 100
  x : Option Int := none
  y : Option Int := none
  width : Option Int := none
  height : Option Int := none
  featherRadius : Option Nat := none
  polygonPoints : Option (List Point2) := none
  order : Nat := 0
deriving DecidableEq, Repr

/-- A history snapshot: layers plus the active-layer pointer. -/
structure HistorySnapshot where
  layers : List Layer
  activeLayerId : Option String
deriving DecidableEq, Repr

/-- Base image payload stored by the canvas store. -/
structure BaseImage where
  data : String
  width : Nat
  height : Nat
  format : String
deriving DecidableEq, Repr

/-- Complete snapshot of a project's state (`ProjectSnapshot` in
`toolStore.ts`). -/
structure ProjectSnapshot where
  id : String
  name : String
  createdAt : Nat
  baseImage : Option BaseImage
  imagePath : Option String
  zoom : Int
  panX : Int
  panY : Int
  layers : List Layer
  activeLayerId : Option String
  historyPast : List HistorySnapshot
  historyFuture : List HistorySnapshot
  isDirty : Bool
deriving DecidableEq, Repr

/-! ## JS helpers: truthiness, Map as association list, array indexing -/

/-- JS truthiness of a `string | null | undefined` value: `null`,
`undefined` and the empty string are falsy. -/
def strTruthy : Option String → Bool
  | none => false
  | some s => !(s == "")

/-- JS `a || d` for a `string | null` value `a` and string default `d`. -/
def jsOrStr : Option String → String → String
  | none, d => d
  | some s, d => if s == "" then d else s

/-- `Map.get`: the value stored at the first (unique) matching key. -/
def mget : List (String × ProjectSnapshot) → String → Option ProjectSnapshot
  | [], _ => none
  | (k, v) :: rest, key => if k = key then some v else mget rest key

/-- `Map.set`: replace the entry in place if the key is present, otherwise
append it. -/
def mset : List (String × ProjectSnapshot) → String → ProjectSnapshot →
    List (String × ProjectSnapshot)
  | [], key, v => [(key, v)]
  | (k, w) :: rest, key, v =>
      if k = key then (key, v) :: rest else (k, w) :: mset rest key v

/-- `Map.delete`: remove the entry with the given key. -/
def mdel : List (String × ProjectSnapshot) → String → List (String × ProjectSnapshot)
  | [], _ => []
  | (k, w) :: rest, key => if k = key then mdel rest key else (k, w) :: mdel rest key

/-- Index of the first occurrence of `x`, if present
(`Array.prototype.indexOf` without the `-1` encoding). -/
def idxOf? : List String → String → Option Nat
  | [], _ => none
  | y :: ys, x => if y = x then some 0 else (idxOf? ys x).map (· + 1)

/-- JS `Array.prototype.indexOf`, `-1` when absent. -/
def jsIndexOf (l : List String) (x : String) : Int :=
  match idxOf? l x with
  | some n => (n : Int)
  | none => -1

/-- JS `arr[i]` on an `Int` index: `undefined` (here `none`) when out of
range. -/
def jsGet (l : List String) (i : Int) : Option String :=
  if 0 ≤ i then l.get? i.toNat else none

/-! ## Live stores

The canvas / layer / history / selection stores holding the single live
materialization.  Only the fields the projects store reads or writes are
modelled. -/

/-- The live stores for the currently materialized session. -/
structure LiveState where
  baseImage : Option BaseImage
  imagePath : Option String
  zoom : Int
  panX : Int
  panY : Int
  layers : List Layer
  activeLayerId : Option String
  historyPast : List HistorySnapshot
  historyFuture : List HistorySnapshot
  isDirty : Bool
  selectionActive : Bool
deriving DecidableEq, Repr

/-- Modelled from the spec: the empty live-store state produced by
`clearAllStores` (the canvas, layer, history and selection store
implementations are not part of the session-manager source; the spec says
the live stores are cleared to an empty state, with the defaults matching
`createEmptySnapshot`). -/
def emptyLive : LiveState where
  baseImage := none
  imagePath := none
  zoom := 100
  panX := 0
  panY := 0
  layers := []
  activeLayerId := none
  historyPast := []
  historyFuture := []
  isDirty := false
  selectionActive := false

/-- Modelled from the spec: `layerStore.restoreLayers` defensively
re-establishes the order invariant on untrusted input — duplicate ids are
dropped (first occurrence wins), layers are sorted by `order`, and orders
are reassigned densely from 0 (the layer store source is absent). -/
def dedupeById : List String → List Layer → List Layer
  | _, [] => []
  | seen, l :: ls =>
      if l.id ∈ seen then dedupeById seen ls
      else l :: dedupeById (l.id :: seen) ls

/-- Insert a layer into a list sorted by ascending `order`. -/
def insertByOrder (l : Layer) : List Layer → List Layer
  | [] => [l]
  | x :: xs => if l.order < x.order then l :: x :: xs else x :: insertByOrder l xs

/-- Sort layers by ascending `order` (stable insertion sort). -/
def sortByOrder : List Layer → List Layer
  | [] => []
  | x :: xs => insertByOrder x (sortByOrder xs)

/-- Reassign `order` densely starting from `i`. -/
def renumberFrom (i : Nat) : List Layer → List Layer
  | [] => []
  | l :: ls => { l with order := i } :: renumberFrom (i + 1) ls

/-- Modelled from the spec: the full defensive normalization performed by
`layerStore.restoreLayers`. -/
def restoreLayersList (ls : List Layer) : List Layer :=
  renumberFrom 0 (sortByOrder (dedupeById [] ls))

/-- `restoreStateFromSnapshot` (toolStore.ts): restore all live stores
from a project snapshot.  `setBaseImage(img, snapshot.imagePath || '')`
versus `clearImage`, then zoom/pan, then layers (cleared when the snapshot
has none), then history, then the selection is cleared. -/
def restoreStateFromSnapshot (snap : ProjectSnapshot) (live : LiveState) : LiveState :=
  let c1 :=
    match snap.baseImage with
    | some img =>
        { live with baseImage := some img, imagePath := some (jsOrStr snap.imagePath "") }
    | none => { live with baseImage := none, imagePath := none }
  let c2 := { c1 with zoom := snap.zoom, panX := snap.panX, panY := snap.panY }
  let c3 :=
    if 0 < snap.layers.length then
      { c2 with layers := restoreLayersList snap.layers, activeLayerId := snap.activeLayerId }
    else { c2 with layers := [], activeLayerId := none }
  let c4 :=
    { c3 with historyPast := snap.historyPast, historyFuture := snap.historyFuture,
              isDirty := snap.isDirty }
  { c4 with selectionActive := false }

/-! ## Session manager state and operations (toolStore.ts, projects store) -/

/-- The projects-store state plus the live stores. -/
structure AppState where
  projects : List (String × ProjectSnapshot)
  activeProjectId : Option String
  tabOrder : List String
  live : LiveState
deriving DecidableEq, Repr

/-- The initial, empty projects store. -/
def initState : AppState where
  projects := []
  activeProjectId := none
  tabOrder := []
  live := emptyLive

/-- `createEmptySnapshot` from the source. -/
def createEmptySnapshot (id name : String) (now : Nat) : ProjectSnapshot where
  id := id
  name := name
  createdAt := now
  baseImage := none
  imagePath := none
  zoom := 100
  panX := 0
  panY := 0
  layers := []
  activeLayerId := none
  historyPast := []
  historyFuture := []
  isDirty := false

/-- `captureCurrentState` from the source: snapshot the live stores. -/
def captureCurrentState (id name : String) (now : Nat) (live : LiveState) : ProjectSnapshot where
  id := id
  name := name
  createdAt := now
  baseImage := live.baseImage
  imagePath := live.imagePath
  zoom := live.zoom
  panX := live.panX
  panY := live.panY
  layers := live.layers
  activeLayerId := live.activeLayerId
  historyPast := live.historyPast
  historyFuture := live.historyFuture
  isDirty := live.isDirty

/-- `saveCurrentProjectState`: no-op when no project is active (JS
truthiness, so an empty-string id also skips) or when the active id has no
registry entry; otherwise overwrite the active project's snapshot with the
captured live state. -/
def saveCurrentProjectState (now : Nat) (s : AppState) : AppState :=
  match s.activeProjectId with
  | none => s
  | some aid =>
      if aid = "" then s
      else
        match mget s.projects aid with
        | none => s
        | some cur =>
            { s with projects := mset s.projects aid (captureCurrentState aid cur.name now s.live) }

/-- `createProject`: the successive store states produced by one call.
`id` stands for the externally generated unique project id and `now` for
`Date.now()`.  The states are, in order: after the conditional
`saveCurrentProjectState`, after `set (activeProjectId := null)`, after
the conditional `clearAllStores`, and after the final insertion/activation
`set` (which uses the tab order captured at entry). -/
def createProjectSteps (id : String) (now : Nat) (name : Option String) (fromDrop : Bool)
    (s : AppState) : List AppState :=
  let projectName := jsOrStr name "Untitled"
  let s1 := if strTruthy s.activeProjectId then saveCurrentProjectState now s else s
  let s2 := { s1 with activeProjectId := none }
  let s3 := if fromDrop then s2 else { s2 with live := emptyLive }
  let s4 :=
    { s3 with projects := mset s3.projects id (createEmptySnapshot id projectName now),
              activeProjectId := some id,
              tabOrder := s.tabOrder ++ [id] }
  [s1, s2, s3, s4]

/-- Last state of a step list, with a default for the empty (no-op)
case. -/
def lastD (d : AppState) : List AppState → AppState
  | [] => d
  | [x] => x
  | _ :: x :: xs => lastD d (x :: xs)

/-- `createProject` final state. -/
def createProject (id : String) (now : Nat) (name : Option String) (fromDrop : Bool)
    (s : AppState) : AppState :=
  lastD s (createProjectSteps id now name fromDrop s)

/-- The replacement active id computed by `forceCloseProject` before any
mutation: if tabs remain, the tab at `min(originalTabIndex, newCount-1)`
when the closed id was active (JS indexing, `-1` when the id is not a
tab), else the unchanged active id; `null` when no tabs remain. -/
def fcNewActive (s : AppState) (id : String) : Option String :=
  let newTabOrder := s.tabOrder.filter (fun t => !(t == id))
  if 0 < newTabOrder.length then
    if s.activeProjectId = some id then
      jsGet newTabOrder (min (jsIndexOf s.tabOrder id) ((newTabOrder.length : Int) - 1))
    else s.activeProjectId
  else none

/-- The intermediate state of `forceCloseProject` right after the live
stores were updated (active id already nulled): the replacement's
snapshot restored when the replacement is JS-truthy and found in the
updated registry, or all live stores cleared. -/
def fcLiveStep (s : AppState) (id : String) : AppState :=
  let sNull := { s with activeProjectId := none }
  if strTruthy (fcNewActive s id) then
    match fcNewActive s id with
    | some nid =>
        match mget (mdel s.projects id) nid with
        | some np => { sNull with live := restoreStateFromSnapshot np sNull.live }
        | none => sNull
    | none => sNull
  else { sNull with live := emptyLive }

/-- `forceCloseProject`: the successive store states of one call.  The tab
index is looked up in the original tab order; the new active project is
computed before any store mutation; when the active project changes, the
active id is first set to `null`, then the live stores are restored from
the replacement's snapshot (JS-truthy replacement found in the updated
registry) or cleared entirely, and only then is the final registry /
tab-order / active-id `set` applied. -/
def forceCloseProjectSteps (s : AppState) (id : String) : List AppState :=
  let newProjects := mdel s.projects id
  let newTabOrder := s.tabOrder.filter (fun t => !(t == id))
  let newActiveId : Option String := fcNewActive s id
  if newActiveId = s.activeProjectId then
    [{ s with projects := newProjects, tabOrder := newTabOrder, activeProjectId := newActiveId }]
  else
    [{ s with activeProjectId := none },
     fcLiveStep s id,
     { fcLiveStep s id with
         projects := newProjects, tabOrder := newTabOrder, activeProjectId := newActiveId }]

/-- `forceCloseProject` final state. -/
def forceCloseProject (s : AppState) (id : String) : AppState :=
  lastD s (forceCloseProjectSteps s id)

/-- `closeProject`: success boolean plus resulting state.  An unknown id
succeeds without any change; a dirty project (live dirtiness for the
active project, snapshot dirtiness otherwise) fails without any change;
a clean project is force-closed. -/
def closeProject (s : AppState) (id : String) : Bool × AppState :=
  match mget s.projects id with
  | none => (true, s)
  | some project =>
      let isProjectDirty :=
        if s.activeProjectId = some id then s.live.isDirty else project.isDirty
      if isProjectDirty then (false, s)
      else (true, forceCloseProject s id)

/-- `switchProject`: the successive store states of one call.  A no-op
when the target is already active or absent; otherwise the current state
is saved (the guard matches `saveCurrentProjectState`'s own truthiness
guard), then the active id is set to the target, then the target snapshot
(fetched at entry) is restored into the live stores. -/
def switchProjectSteps (now : Nat) (s : AppState) (id : String) : List AppState :=
  if s.activeProjectId = some id then []
  else
    match mget s.projects id with
    | none => []
    | some target =>
        let s1 := saveCurrentProjectState now s
        let s2 := { s1 with activeProjectId := some id }
        let s3 := { s2 with live := restoreStateFromSnapshot target s2.live }
        [s1, s2, s3]

/-- `switchProject` final state. -/
def switchProject (now : Nat) (s : AppState) (id : String) : AppState :=
  lastD s (switchProjectSteps now s id)

/-- `updateProjectName`: rename an existing project's snapshot. -/
def updateProjectName (s : AppState) (id name : String) : AppState :=
  match mget s.projects id with
  | none => s
  | some project => { s with projects := mset s.projects id { project with name := name } }

/-- `hasUnsavedChanges`: live dirtiness for the active project, snapshot
dirtiness otherwise (`project?.isDirty || false`). -/
def hasUnsavedChanges (s : AppState) (id : String) : Bool :=
  if s.activeProjectId = some id then s.live.isDirty
  else
    match mget s.projects id with
    | some project => project.isDirty
    | none => false

/-- Path normalization used by `findProjectByPath`:
`path.toLowerCase().replace(/\\/g, '/')` — lower-case every character,
then replace each backslash by a forward slash. -/
def normalizePath (p : String) : String :=
  String.mk ((p.data.map Char.toLower).map (fun c => if c = '\\' then '/' else c))

/-- The stored-snapshot scan of `findProjectByPath`: first project (in
Map insertion order) whose JS-truthy `imagePath` normalizes to the query
path. -/
def findInProjects : List (String × ProjectSnapshot) → String → Option String
  | [], _ => none
  | (pid, project) :: rest, np =>
      match project.imagePath with
      | some ip =>
          if ip ≠ "" ∧ normalizePath ip = np then some pid else findInProjects rest np
      | none => findInProjects rest np

/-- `findProjectByPath`: case-insensitive, separator-normalized match,
checking the live active session's current path first (guarded by JS
truthiness of both the active id and the live path), then all stored
snapshots. -/
def findProjectByPath (s : AppState) (filePath : String) : Option String :=
  let normalizedPath := normalizePath filePath
  match s.activeProjectId with
  | some aid =>
      if aid = "" then findInProjects s.projects normalizedPath
      else
        match s.live.imagePath with
        | some cur =>
            if cur = "" then findInProjects s.projects normalizedPath
            else if normalizePath cur = normalizedPath then some aid
            else findInProjects s.projects normalizedPath
        | none => findInProjects s.projects normalizedPath
  | none => findInProjects s.projects normalizedPath

/-! ## Layer Model (spec-modelled: the layer store source is absent) -/

/-- The Layer Model store state: ordered layer stack plus the active
layer pointer. -/
structure LayerModel where
  layers : List Layer
  activeLayerId : Option String
deriving DecidableEq, Repr

/-- Modelled from the spec: `layerStore.addLayer` (the layer store
implementation is absent from the sources; only its test and callers are
present).  Appends a new layer with `order = currentCount`, assigns the
externally generated fresh `id`, and makes the new layer active. -/
def addLayer (m : LayerModel) (id name : String) (ltype : LayerType) (imageData : String)
    (visible : Bool) (opacity : Nat) : LayerModel where
  layers := m.layers ++
    [{ id := id, name := name, type := ltype, imageData := imageData,
       visible := visible, opacity := opacity, order := m.layers.length }]
  activeLayerId := some id

/-- First layer with the given id. -/
def findById : List Layer → String → Option Layer
  | [], _ => none
  | l :: ls, id => if l.id = id then some l else findById ls id

/-- Remove the first layer with the given id. -/
def removeFirstById : List Layer → String → List Layer
  | [], _ => []
  | l :: ls, id => if l.id = id then ls else l :: removeFirstById ls id

/-- Close the order gap left by a removed layer: decrement the order of
every layer above the removed order. -/
def shiftOrdersAfter (k : Nat) (ls : List Layer) : List Layer :=
  ls.map (fun x => if k < x.order then { x with order := x.order - 1 } else x)

/-- Modelled from the spec: the fallback active layer after removing the
active layer — the non-base layer now occupying the closest lower order,
or `null` when none remain besides base. -/
def pickFallback (ls : List Layer) (removedOrder : Nat) : Option String :=
  (ls.foldl
    (fun acc x =>
      if x.type = LayerType.base ∨ ¬x.order < removedOrder then acc
      else
        match acc with
        | none => some x
        | some b => if b.order < x.order then some x else some b)
    none).map (fun l => l.id)

/-- Modelled from the spec: `layerStore.removeLayer` — silent no-op for
the base layer or an absent id; otherwise removes the layer, closes the
order gap, and moves the active pointer to the closest lower non-base
layer when the removed layer was active. -/
def removeLayer (m : LayerModel) (id : String) : LayerModel :=
  match findById m.layers id with
  | none => m
  | some l =>
      if l.type = LayerType.base then m
      else
        { layers := shiftOrdersAfter l.order (removeFirstById m.layers id),
          activeLayerId :=
            if m.activeLayerId = some id then
              pickFallback (shiftOrdersAfter l.order (removeFirstById m.layers id)) l.order
            else m.activeLayerId }

/-- Insert a layer at an index (appending when the index reaches the
end), mirroring `Array.prototype.splice` insertion. -/
def insertAtIdx : List Layer → Nat → Layer → List Layer
  | l, 0, a => a :: l
  | [], _ + 1, a => [a]
  | x :: xs, i + 1, a => x :: insertAtIdx xs i a

/-- Modelled from the spec: `layerStore.reorderLayers(fromIndex, toIndex)`
— out-of-range indices fail with an `IndexError`; otherwise the element
at `fromIndex` is moved to `toIndex` and every order is reassigned so the
sequence stays `[0..N-1]` in the new arrangement. -/
def reorderLayers (m : LayerModel) (fromIndex toIndex : Nat) :
    Except String LayerModel :=
  if h : fromIndex < m.layers.length ∧ toIndex < m.layers.length then
    let moved := m.layers.get ⟨fromIndex, h.1⟩
    let rearranged := insertAtIdx (m.layers.eraseIdx fromIndex) toIndex moved
    Except.ok { m with layers := renumberFrom 0 rearranged }
  else Except.error "IndexError"

/-- One Layer Model operation. -/
inductive LayerOp where
  | add (id name : String) (ltype : LayerType) (imageData : String) (visible : Bool)
      (opacity : Nat)
  | remove (id : String)
  | reorder (fromIndex toIndex : Nat)
deriving DecidableEq, Repr

/-- Apply a Layer Model operation; a failing reorder leaves the store
unchanged. -/
def applyLayerOp (m : LayerModel) : LayerOp → LayerModel
  | .add id name ltype imageData visible opacity =>
      addLayer m id name ltype imageData visible opacity
  | .remove id => removeLayer m id
  | .reorder fromIndex toIndex =>
      match reorderLayers m fromIndex toIndex with
      | .ok m2 => m2
      | .error _ => m

/-- The empty Layer Model. -/
def emptyLayerModel : LayerModel where
  layers := []
  activeLayerId := none

/-- Run a sequence of Layer Model operations from the empty stack. -/
def runLayerOps (ops : List LayerOp) : LayerModel :=
  ops.foldl applyLayerOp emptyLayerModel

/-- The three-layer stack of the reorder test (`[A,B,C]`, orders
`0,1,2`). -/
def c9Model : LayerModel :=
  runLayerOps
    [LayerOp.add "l1" "Layer 1" LayerType.shape "" true 100,
     LayerOp.add "l2" "Layer 2" LayerType.shape "" true 100,
     LayerOp.add "l3" "Layer 3" LayerType.shape "" true 100]

/-! ## Scene Synchronizer: per-layer object creation (useLayerRenderer) -/

/-- Which black-box derived-image transform a creation step invoked. -/
inductive TransformInvoked where
  | noTransform
  | feather
  | sharpMask
deriving DecidableEq, Repr

/-- Dimensions reported by a successfully loaded image object. -/
structure ImgDim where
  width : Nat
  height : Nat
deriving DecidableEq, Repr

/-- Observable outcome of processing one non-base layer in the
reconciliation loop: the transform invoked, the image data handed to the
object loader, whether a new scene object was created and added, and the
derived-image cache entry for the layer after the step. -/
structure CreateOutcome where
  invoked : TransformInvoked
  usedImage : String
  created : Bool
  cacheAfter : Option Nat
deriving DecidableEq, Repr

/-- `layer.featherRadius ?? 0`. -/
def pcCurrentFeather (layer : Layer) : Nat :=
  layer.featherRadius.getD 0

/-- `cachedFeather !== undefined && cachedFeather !== currentFeather`. -/
def pcFeatherChanged (layer : Layer) (cached : Option Nat) : Bool :=
  cached.isSome && !(cached == some (pcCurrentFeather layer))

/-- `layer.originalImageData && (featherChanged || cachedFeather === undefined)`
(JS truthiness on the string). -/
def pcNeedsApply (layer : Layer) (cached : Option Nat) : Bool :=
  strTruthy layer.originalImageData && (pcFeatherChanged layer cached || cached.isNone)

/-- The transform-selection block of the creation path: which transform
is invoked and which image data results, with `featherResult` and
`sharpResult` standing for the (black-box, fallible) results of
`applyLayerFeathering` and `applySharpPolygonMask` — a falsy result
falls back to the layer's current `imageData`. -/
def pcDecide (layer : Layer) (cached : Option Nat)
    (featherResult sharpResult : Option String) : TransformInvoked × String :=
  if pcNeedsApply layer cached then
    if 0 < pcCurrentFeather layer then
      (TransformInvoked.feather,
        match featherResult with
        | some f => if f == "" then layer.imageData else f
        | none => layer.imageData)
    else if 3 ≤ (layer.polygonPoints.getD []).length then
      (TransformInvoked.sharpMask,
        match sharpResult with
        | some f => if f == "" then layer.imageData else f
        | none => layer.imageData)
    else if strTruthy layer.originalImageData then
      (TransformInvoked.noTransform, layer.originalImageData.getD layer.imageData)
    else (TransformInvoked.noTransform, layer.imageData)
  else (TransformInvoked.noTransform, layer.imageData)

/-- One layer's creation step in the reconciliation loop
(useLayerRenderer lines 95-150): a fabric object is (re)created when the
object is missing or the cached feather differs; `loadResult` stands for
the outcome of `FabricImage.fromURL` (`none` = exception); an image with
a zero dimension is rejected (`continue`); the cache entry is written
(with the current feather radius) exactly when the object is created,
regardless of transform success. -/
def processLayerCreate (layer : Layer) (objPresent : Bool) (cached : Option Nat)
    (featherResult sharpResult : Option String) (loadResult : Option ImgDim) : CreateOutcome :=
  if !objPresent || pcFeatherChanged layer cached then
    match loadResult with
    | some dim =>
        if dim.width = 0 || dim.height = 0 then
          { invoked := (pcDecide layer cached featherResult sharpResult).1,
            usedImage := (pcDecide layer cached featherResult sharpResult).2,
            created := false, cacheAfter := cached }
        else
          { invoked := (pcDecide layer cached featherResult sharpResult).1,
            usedImage := (pcDecide layer cached featherResult sharpResult).2,
            created := true, cacheAfter := some (pcCurrentFeather layer) }
    | none =>
        { invoked := (pcDecide layer cached featherResult sharpResult).1,
          usedImage := (pcDecide layer cached featherResult sharpResult).2,
          created := false, cacheAfter := cached }
  else
    { invoked := TransformInvoked.noTransform, usedImage := layer.imageData,
      created := false, cacheAfter := cached }

/-! ## Scene Synchronizer: re-entrancy and processing-state guards -/

/-- The state read by the layer-rendering effect: the version ref and the
guard inputs (`fabricRef.current`, `imageTransform`, `layers`,
`baseImageReady` as truthiness flags). -/
structure SyncState where
  processingVersion : Nat
  canvasReady : Bool
  transformReady : Bool
  layersReady : Bool
  baseImageReady : Bool
deriving DecidableEq, Repr

/-- The effect's entry guard:
`if (!canvas || !imageTransform || !layers || !baseImageReady) return;`. -/
def effectGuardOk (s : SyncState) : Bool :=
  s.canvasReady && s.transformReady && s.layersReady && s.baseImageReady

/-- One trigger of the layer-rendering effect: when the guard fails the
effect returns with no state change and no pass started (deferred until a
re-trigger, e.g. the base-image-ready signal); otherwise the version ref
is incremented and the new pass captures the incremented value. -/
def effectStart (s : SyncState) : SyncState × Option Nat :=
  if effectGuardOk s then
    ({ s with processingVersion := s.processingVersion + 1 }, some (s.processingVersion + 1))
  else (s, none)

/-- The per-layer loop of `processAllLayers`: before processing each
layer the pass compares the global version (`versionAt i` at the i-th
check, reflecting passes started during the intervening awaits) with its
captured version and returns immediately on mismatch.  Non-base layers
contribute scene writes (their ids); the Bool records whether the loop
ran to completion, gating the post-loop scene-graph writes (z-order
enforcement, stale-object removal, outline, render). -/
def runPassWrites (captured : Nat) (versionAt : Nat → Nat) :
    List Layer → Nat → List String × Bool
  | [], _ => ([], true)
  | l :: ls, i =>
      if versionAt i ≠ captured then ([], false)
      else
        let rest := runPassWrites captured versionAt ls (i + 1)
        (if l.type = LayerType.base then rest.1 else l.id :: rest.1, rest.2)

/-- A sync state whose base image is not yet ready. -/
def c5Sync : SyncState where
  processingVersion := 3
  canvasReady := true
  transformReady := true
  layersReady := true
  baseImageReady := false

/-- A global-version history where a newer pass starts after the first
layer check. -/
def c5VersionAt (j : Nat) : Nat :=
  if j = 0 then 7 else 8

/-- Two plain shape layers for the pass-abort witness. -/
def c5LayerA : Layer where
  id := "a"
  name := "A"
  type := LayerType.shape
  imageData := ""

def c5LayerB : Layer where
  id := "b"
  name := "B"
  type := LayerType.shape
  imageData := ""

/-! ## Session-manager operation sequences -/

/-- One Session Manager operation, with the externally supplied values
(generated ids, `Date.now()`) as parameters. -/
inductive SMOp where
  | create (name : Option String) (fromDrop : Bool) (id : String) (now : Nat)
  | close (id : String)
  | forceClose (id : String)
  | switch (now : Nat) (id : String)
  | save (now : Nat)
  | rename (id : String) (name : String)
deriving DecidableEq, Repr

/-- Apply one Session Manager operation to the store state. -/
def applyOp (s : AppState) : SMOp → AppState
  | .create name fromDrop id now => createProject id now name fromDrop s
  | .close id => (closeProject s id).2
  | .forceClose id => forceCloseProject s id
  | .switch now id => switchProject now s id
  | .save now => saveCurrentProjectState now s
  | .rename id name => updateProjectName s id name

/-- Run a sequence of Session Manager operations from the empty store. -/
def runOps (ops : List SMOp) : AppState :=
  ops.foldl applyOp initState

/-- The Session Registry invariant maintained by every operation: every
registry key is a tab, every tab has a registry entry, and the active id
(when non-null) is a tab. -/
def RegistryInv (s : AppState) : Prop :=
  (∀ k, (mget s.projects k).isSome = true → k ∈ s.tabOrder) ∧
  (∀ t, t ∈ s.tabOrder → (mget s.projects t).isSome = true) ∧
  (∀ a, s.activeProjectId = some a → a ∈ s.tabOrder)

/-- Well-formedness of a store state, as produced by the program itself:
every tab has a registry entry, tab ids are non-empty strings (generated
ids always are), and the active id (when non-null) is a tab. -/
def WF (s : AppState) : Prop :=
  (∀ t ∈ s.tabOrder, (mget s.projects t).isSome = true) ∧
  (∀ t ∈ s.tabOrder, t ≠ "") ∧
  (s.activeProjectId = none ∨ ∃ a ∈ s.tabOrder, s.activeProjectId = some a)

/-! ## Concrete states used by witnesses and counterexamples -/

/-- A registry with two projects, the first one active. -/
def c3State : AppState where
  projects :=
    [("p1", createEmptySnapshot "p1" "One" 0),
     ("p2", createEmptySnapshot "p2" "Two" 1)]
  activeProjectId := some "p1"
  tabOrder := ["p1", "p2"]
  live := emptyLive

/-- A registry with a single clean, active project. -/
def c1WitnessState : AppState where
  projects := [("p1", createEmptySnapshot "p1" "Untitled" 0)]
  activeProjectId := some "p1"
  tabOrder := ["p1"]
  live := emptyLive

/-- A registry with three projects, the middle one active. -/
def c2WitnessState : AppState where
  projects :=
    [("p1", createEmptySnapshot "p1" "One" 0),
     ("p2", createEmptySnapshot "p2" "Two" 1),
     ("p3", createEmptySnapshot "p3" "Three" 2)]
  activeProjectId := some "p2"
  tabOrder := ["p1", "p2", "p3"]
  live := emptyLive

/-- A feathered shape layer with original image data retained. -/
def c4Layer : Layer where
  id := "layer1"
  name := "L"
  type := LayerType.shape
  imageData := "raw"
  originalImageData := some "orig"
  featherRadius := some 5

/-- A registry whose active session's live image path is set. -/
def c8State : AppState where
  projects :=
    [("p1", { createEmptySnapshot "p1" "One" 0 with imagePath := some "D:\\Other\\b.png" })]
  activeProjectId := some "p1"
  tabOrder := ["p1"]
  live := { emptyLive with imagePath := some "C:\\Img\\A.PNG" }

/-! ## Registry (association-list Map) lemmas -/

theorem mget_mset_self (m : List (String × ProjectSnapshot)) (k : String) (v : ProjectSnapshot) :
    mget (mset m k v) k = some v := by
  induction m with
  | nil => simp [mset, mget]
  | cons hd tl ih =>
      obtain ⟨k0, v0⟩ := hd
      by_cases h : k0 = k
      · simp [mset, h, mget]
      · simp [mset, h, mget, ih]

theorem mget_mset_ne (m : List (String × ProjectSnapshot)) (k k' : String) (v : ProjectSnapshot)
    (h : k' ≠ k) : mget (mset m k v) k' = mget m k' := by
  induction m with
  | nil => simp [mset, mget, Ne.symm h]
  | cons hd tl ih =>
      obtain ⟨k0, v0⟩ := hd
      by_cases h0 : k0 = k
      · subst h0
        simp [mset, mget, Ne.symm h]
      · simp [mset, h0, mget, ih]

theorem mget_mdel (m : List (String × ProjectSnapshot)) (k k' : String) :
    mget (mdel m k) k' = if k' = k then none else mget m k' := by
  induction m with
  | nil => simp [mdel, mget]
  | cons hd tl ih =>
      obtain ⟨k0, v0⟩ := hd
      by_cases h0 : k0 = k
      · subst h0
        by_cases h1 : k' = k0
        · subst h1
          simpa [mdel, mget] using ih
        · simp [mdel, mget, h1, ih, Ne.symm h1]
      · by_cases h1 : k0 = k'
        · subst h1
          simp [mdel, h0, mget, Ne.symm h0]
        · simp [mdel, h0, mget, h1, ih]

theorem isSome_mget_mset (m : List (String × ProjectSnapshot)) (k k' : String)
    (v : ProjectSnapshot) :
    (mget (mset m k v) k').isSome = true ↔ (k' = k ∨ (mget m k').isSome = true) := by
  by_cases h : k' = k
  · subst h
    simp [mget_mset_self]
  · rw [mget_mset_ne m k k' v h]
    simp [h]

theorem isSome_mget_mdel (m : List (String × ProjectSnapshot)) (k k' : String) :
    (mget (mdel m k) k').isSome = true ↔ (k' ≠ k ∧ (mget m k').isSome = true) := by
  rw [mget_mdel]
  by_cases h : k' = k <;> simp [h]

theorem jsGet_mem (l : List String) (i : Int) (x : String) (h : jsGet l i = some x) : x ∈ l := by
  unfold jsGet at h
  by_cases h0 : 0 ≤ i
  · simp only [h0, if_true] at h
    exact List.get?_mem h
  · simp [h0] at h

theorem idxOf?_of_mem (l : List String) (x : String) (h : x ∈ l) :
    ∃ k, idxOf? l x = some k ∧ k < l.length := by
  induction l with
  | nil => cases h
  | cons y ys ih =>
      by_cases h0 : y = x
      · exact ⟨0, by simp [idxOf?, h0], by simp⟩
      · have hx : x ∈ ys := by
          cases h with
          | head => exact absurd rfl h0
          | tail _ hmem => exact hmem
        obtain ⟨k, hk, hlt⟩ := ih hx
        exact ⟨k + 1, by simp [idxOf?, h0, hk], by simpa using Nat.succ_lt_succ hlt⟩

/-! ## Claim C10: closing an unknown session reports success -/

/-- C10: `closeSession(id)` with an id absent from the registry returns
the success boolean and leaves the whole state (registry, tab sequence,
active id, live stores) unchanged. -/
theorem closeProject_unknown_id_succeeds (s : AppState) (id : String)
    (h : mget s.projects id = none) :
    closeProject s id = (true, s) := by
  simp [closeProject, h]

/-- Witness for C10 at a concrete state. -/
theorem closeProject_unknown_id_succeeds_witness :
    mget initState.projects "missing" = none ∧
    closeProject initState "missing" = (true, initState) :=
  ⟨by decide, closeProject_unknown_id_succeeds initState "missing" (by decide)⟩

/-! ## Claim C1: closeSession fails on dirty sessions, else force-closes -/

/-- C1: for a session present in the registry, `closeSession(id)` reads
dirtiness from the live History Engine state when `id` is active and from
the stored snapshot otherwise; when dirty it returns the failure boolean
with the state (registry, tab sequence, active id) completely unchanged,
and when clean it returns success with exactly the effect of
`forceCloseSession(id)`. -/
theorem closeProject_dirty_blocks_clean_forces (s : AppState) (id : String)
    (project : ProjectSnapshot) (h : mget s.projects id = some project) :
    ((if s.activeProjectId = some id then s.live.isDirty else project.isDirty) = true →
       closeProject s id = (false, s)) ∧
    ((if s.activeProjectId = some id then s.live.isDirty else project.isDirty) = false →
       closeProject s id = (true, forceCloseProject s id)) := by
  constructor <;> intro hd <;> simp [closeProject, h, hd]

/-- Witness for C1: a clean active session is force-closed. -/
theorem closeProject_dirty_blocks_clean_forces_witness :
    mget c1WitnessState.projects "p1" = some (createEmptySnapshot "p1" "Untitled" 0) ∧
    (if c1WitnessState.activeProjectId = some "p1" then c1WitnessState.live.isDirty
     else (createEmptySnapshot "p1" "Untitled" 0).isDirty) = false ∧
    closeProject c1WitnessState "p1" = (true, forceCloseProject c1WitnessState "p1") :=
  ⟨by decide, by decide,
    (closeProject_dirty_blocks_clean_forces c1WitnessState "p1"
      (createEmptySnapshot "p1" "Untitled" 0) (by decide)).2 (by decide)⟩

/-! ## Reduction lemmas for the session operations -/

theorem save_tabOrder (now : Nat) (s : AppState) :
    (saveCurrentProjectState now s).tabOrder = s.tabOrder := by
  unfold saveCurrentProjectState
  cases ha : s.activeProjectId with
  | none => rfl
  | some aid =>
      by_cases he : aid = ""
      · simp [he]
      · cases hg : mget s.projects aid <;> simp [he, hg]

theorem save_active (now : Nat) (s : AppState) :
    (saveCurrentProjectState now s).activeProjectId = s.activeProjectId := by
  unfold saveCurrentProjectState
  cases ha : s.activeProjectId with
  | none => exact ha
  | some aid =>
      by_cases he : aid = ""
      · simp [he, ha]
      · cases hg : mget s.projects aid <;> simp [he, hg, ha]

theorem save_live (now : Nat) (s : AppState) :
    (saveCurrentProjectState now s).live = s.live := by
  unfold saveCurrentProjectState
  cases ha : s.activeProjectId with
  | none => rfl
  | some aid =>
      by_cases he : aid = ""
      · simp [he]
      · cases hg : mget s.projects aid <;> simp [he, hg]

theorem save_projects_isSome (now : Nat) (s : AppState) (k : String) :
    (mget (saveCurrentProjectState now s).projects k).isSome = true ↔
      (mget s.projects k).isSome = true := by
  unfold saveCurrentProjectState
  cases ha : s.activeProjectId with
  | none => exact Iff.rfl
  | some aid =>
      by_cases he : aid = ""
      · simp [he]
      · simp only [he, if_false]
        cases hg : mget s.projects aid with
        | none => simp [hg]
        | some cur =>
            simp only [hg]
            constructor
            · intro hk
              rcases (isSome_mget_mset _ _ _ _).1 hk with heq | hk2
              · rw [heq, hg]
                rfl
              · exact hk2
            · intro hk
              exact (isSome_mget_mset _ _ _ _).2 (Or.inr hk)

theorem if_save_collapse (now : Nat) (s : AppState) :
    (if strTruthy s.activeProjectId then saveCurrentProjectState now s else s) =
      saveCurrentProjectState now s := by
  cases ha : s.activeProjectId with
  | none => simp [strTruthy, ha, saveCurrentProjectState]
  | some aid =>
      by_cases he : aid = ""
      · subst he
        simp [strTruthy, ha, saveCurrentProjectState]
      · simp [strTruthy, ha, he]

theorem createProject_projects (id : String) (now : Nat) (name : Option String) (fd : Bool)
    (s : AppState) :
    (createProject id now name fd s).projects =
      mset (if strTruthy s.activeProjectId then saveCurrentProjectState now s else s).projects id
        (createEmptySnapshot id (jsOrStr name "Untitled") now) := by
  cases fd <;> rfl

theorem createProject_tabOrder (id : String) (now : Nat) (name : Option String) (fd : Bool)
    (s : AppState) :
    (createProject id now name fd s).tabOrder = s.tabOrder ++ [id] := by
  cases fd <;> rfl

theorem createProject_active (id : String) (now : Nat) (name : Option String) (fd : Bool)
    (s : AppState) :
    (createProject id now name fd s).activeProjectId = some id := by
  cases fd <;> rfl

theorem forceCloseProject_projects (s : AppState) (id : String) :
    (forceCloseProject s id).projects = mdel s.projects id := by
  simp only [forceCloseProject, forceCloseProjectSteps]
  split <;> rfl

theorem forceCloseProject_tabOrder (s : AppState) (id : String) :
    (forceCloseProject s id).tabOrder = s.tabOrder.filter (fun t => !(t == id)) := by
  simp only [forceCloseProject, forceCloseProjectSteps]
  split <;> rfl

theorem forceCloseProject_active (s : AppState) (id : String) :
    (forceCloseProject s id).activeProjectId = fcNewActive s id := by
  simp only [forceCloseProject, forceCloseProjectSteps]
  split <;> rfl

theorem switchProject_of_active (now : Nat) (s : AppState) (id : String)
    (h : s.activeProjectId = some id) : switchProject now s id = s := by
  simp [switchProject, switchProjectSteps, h, lastD]

theorem switchProject_of_missing (now : Nat) (s : AppState) (id : String)
    (h1 : ¬s.activeProjectId = some id) (h2 : mget s.projects id = none) :
    switchProject now s id = s := by
  simp [switchProject, switchProjectSteps, h1, h2, lastD]

theorem switchProject_eq (now : Nat) (s : AppState) (id : String) (target : ProjectSnapshot)
    (h1 : ¬s.activeProjectId = some id) (h2 : mget s.projects id = some target) :
    switchProject now s id =
      { saveCurrentProjectState now s with
          activeProjectId := some id,
          live := restoreStateFromSnapshot target (saveCurrentProjectState now s).live } := by
  unfold switchProject switchProjectSteps
  rw [if_neg h1, h2]
  rfl

theorem rename_tabOrder (s : AppState) (id name : String) :
    (updateProjectName s id name).tabOrder = s.tabOrder := by
  unfold updateProjectName
  cases hg : mget s.projects id <;> rfl

theorem rename_active (s : AppState) (id name : String) :
    (updateProjectName s id name).activeProjectId = s.activeProjectId := by
  unfold updateProjectName
  cases hg : mget s.projects id <;> rfl

/-! ## Preservation of the registry invariant (claim C6) -/

theorem inv_save (now : Nat) (s : AppState) (h : RegistryInv s) :
    RegistryInv (saveCurrentProjectState now s) := by
  obtain ⟨h1, h2, h3⟩ := h
  refine ⟨?_, ?_, ?_⟩
  · intro k hk
    rw [save_tabOrder]
    exact h1 k ((save_projects_isSome now s k).1 hk)
  · intro t ht
    rw [save_tabOrder] at ht
    exact (save_projects_isSome now s t).2 (h2 t ht)
  · intro a ha
    rw [save_active] at ha
    rw [save_tabOrder]
    exact h3 a ha

theorem inv_create (id : String) (now : Nat) (name : Option String) (fd : Bool) (s : AppState)
    (h : RegistryInv s) : RegistryInv (createProject id now name fd s) := by
  obtain ⟨h1, h2, h3⟩ := h
  have hsave := inv_save now s ⟨h1, h2, h3⟩
  obtain ⟨g1, g2, g3⟩ := hsave
  refine ⟨?_, ?_, ?_⟩
  · intro k hk
    rw [createProject_projects, if_save_collapse] at hk
    rw [createProject_tabOrder]
    rcases (isSome_mget_mset _ _ _ _).1 hk with rfl | hk2
    · exact List.mem_append.2 (Or.inr (by simp))
    · have hmem := g1 k hk2
      rw [save_tabOrder] at hmem
      exact List.mem_append.2 (Or.inl hmem)
  · intro t ht
    rw [createProject_tabOrder] at ht
    rw [createProject_projects, if_save_collapse]
    rcases List.mem_append.1 ht with ht1 | ht2
    · have := g2 t (by rwa [save_tabOrder])
      exact (isSome_mget_mset _ _ _ _).2 (Or.inr this)
    · have heq : t = id := by simpa using ht2
      subst heq
      exact (isSome_mget_mset _ _ _ _).2 (Or.inl rfl)
  · intro a ha
    rw [createProject_active] at ha
    rw [createProject_tabOrder]
    have heq : a = id := by
      cases ha
      rfl
    subst heq
    exact List.mem_append.2 (Or.inr (by simp))

theorem inv_forceClose (s : AppState) (id : String) (h : RegistryInv s) :
    RegistryInv (forceCloseProject s id) := by
  obtain ⟨h1, h2, h3⟩ := h
  refine ⟨?_, ?_, ?_⟩
  · intro k hk
    rw [forceCloseProject_projects] at hk
    rw [forceCloseProject_tabOrder]
    obtain ⟨hne, hk2⟩ := (isSome_mget_mdel _ _ _).1 hk
    exact List.mem_filter.2 ⟨h1 k hk2, by simpa using hne⟩
  · intro t ht
    rw [forceCloseProject_tabOrder] at ht
    rw [forceCloseProject_projects]
    obtain ⟨ht1, ht2⟩ := List.mem_filter.1 ht
    have hne : t ≠ id := by simpa using ht2
    exact (isSome_mget_mdel _ _ _).2 ⟨hne, h2 t ht1⟩
  · intro a ha
    rw [forceCloseProject_active] at ha
    rw [forceCloseProject_tabOrder]
    simp only [fcNewActive] at ha
    by_cases hlen : 0 < (s.tabOrder.filter (fun t => !(t == id))).length
    · rw [if_pos hlen] at ha
      by_cases hact : s.activeProjectId = some id
      · rw [if_pos hact] at ha
        exact jsGet_mem _ _ _ ha
      · rw [if_neg hact] at ha
        have hmem := h3 a ha
        have hne : a ≠ id := fun hh => hact (hh ▸ ha)
        exact List.mem_filter.2 ⟨hmem, by simpa using hne⟩
    · rw [if_neg hlen] at ha
      cases ha

theorem inv_switch (now : Nat) (s : AppState) (id : String) (h : RegistryInv s) :
    RegistryInv (switchProject now s id) := by
  obtain ⟨h1, h2, h3⟩ := h
  by_cases hact : s.activeProjectId = some id
  · rw [switchProject_of_active now s id hact]
    exact ⟨h1, h2, h3⟩
  · cases hg : mget s.projects id with
    | none =>
        rw [switchProject_of_missing now s id hact hg]
        exact ⟨h1, h2, h3⟩
    | some target =>
        rw [switchProject_eq now s id target hact hg]
        refine ⟨?_, ?_, ?_⟩
        · intro k hk
          have hk2 := (save_projects_isSome now s k).1 hk
          have := h1 k hk2
          show k ∈ (saveCurrentProjectState now s).tabOrder
          rwa [save_tabOrder]
        · intro t ht
          have ht2 : t ∈ (saveCurrentProjectState now s).tabOrder := ht
          rw [save_tabOrder] at ht2
          exact (save_projects_isSome now s t).2 (h2 t ht2)
        · intro a ha
          have heq : a = id := by
            cases ha
            rfl
          subst heq
          show a ∈ (saveCurrentProjectState now s).tabOrder
          rw [save_tabOrder]
          exact h1 a (by rw [hg]; rfl)

theorem inv_close (s : AppState) (id : String) (h : RegistryInv s) :
    RegistryInv ((closeProject s id).2) := by
  unfold closeProject
  cases hg : mget s.projects id with
  | none => exact h
  | some project =>
      cases hd : (if s.activeProjectId = some id then s.live.isDirty else project.isDirty) with
      | true => simpa [hd] using h
      | false =>
          simpa [hd] using inv_forceClose s id h

theorem inv_rename (s : AppState) (id name : String) (h : RegistryInv s) :
    RegistryInv (updateProjectName s id name) := by
  obtain ⟨h1, h2, h3⟩ := h
  unfold updateProjectName
  cases hg : mget s.projects id with
  | none => exact ⟨h1, h2, h3⟩
  | some project =>
      refine ⟨?_, ?_, h3⟩
      · intro k hk
        rcases (isSome_mget_mset _ _ _ _).1 hk with heq | hk2
        · rw [heq]
          exact h1 id (by rw [hg]; rfl)
        · exact h1 k hk2
      · intro t ht
        exact (isSome_mget_mset _ _ _ _).2 (Or.inr (h2 t ht))

theorem inv_applyOp (s : AppState) (op : SMOp) (h : RegistryInv s) :
    RegistryInv (applyOp s op) := by
  cases op with
  | create name fd id now => exact inv_create id now name fd s h
  | close id => exact inv_close s id h
  | forceClose id => exact inv_forceClose s id h
  | switch now id => exact inv_switch now s id h
  | save now => exact inv_save now s h
  | rename id name => exact inv_rename s id name h

theorem inv_initState : RegistryInv initState := by
  refine ⟨?_, ?_, ?_⟩ <;> intro x hx <;> simp [initState, mget] at hx

theorem inv_foldl (ops : List SMOp) :
    ∀ s, RegistryInv s → RegistryInv (ops.foldl applyOp s) := by
  induction ops with
  | nil => intro s h; exact h
  | cons op rest ih => intro s h; exact ih _ (inv_applyOp s op h)

/-- C6: after any sequence of Session Manager operations applied to the
initially empty registry, the active session id, when non-null, is a key
of the registry mapping and an element of the tab sequence. -/
theorem runOps_active_in_registry (ops : List SMOp) (a : String)
    (h : (runOps ops).activeProjectId = some a) :
    (mget (runOps ops).projects a).isSome = true ∧ a ∈ (runOps ops).tabOrder := by
  obtain ⟨h1, h2, h3⟩ := inv_foldl ops initState inv_initState
  have hmem := h3 a h
  exact ⟨h2 a hmem, hmem⟩

/-- Witness for C6 after one create operation. -/
theorem runOps_active_in_registry_witness :
    (runOps [SMOp.create none false "p1" 0]).activeProjectId = some "p1" ∧
    (mget (runOps [SMOp.create none false "p1" 0]).projects "p1").isSome = true ∧
    "p1" ∈ (runOps [SMOp.create none false "p1" 0]).tabOrder := by
  have h := runOps_active_in_registry [SMOp.create none false "p1" 0] "p1" (by decide)
  exact ⟨by decide, h.1, h.2⟩

/-! ## Claim C2: forceCloseSession -/

theorem WF_active_mem (s : AppState) (hwf : WF s) (a : String)
    (hA : s.activeProjectId = some a) : a ∈ s.tabOrder := by
  rcases hwf.2.2 with h0 | ⟨b, hb, hba⟩
  · rw [h0] at hA
    cases hA
  · rw [hba] at hA
    cases hA
    exact hb

theorem jsGet_ofNat (l : List String) (n : Nat) : jsGet l (n : Int) = l.get? n := by
  unfold jsGet
  rw [if_pos (Int.ofNat_nonneg n)]
  simp

theorem fcNewActive_mem (s : AppState) (id a : String)
    (hact : ∀ b, s.activeProjectId = some b → b ∈ s.tabOrder)
    (h : fcNewActive s id = some a) : a ∈ s.tabOrder.filter (fun t => !(t == id)) := by
  simp only [fcNewActive] at h
  by_cases hlen : 0 < (s.tabOrder.filter (fun t => !(t == id))).length
  · rw [if_pos hlen] at h
    by_cases ha : s.activeProjectId = some id
    · rw [if_pos ha] at h
      exact jsGet_mem _ _ _ h
    · rw [if_neg ha] at h
      have hmem := hact a h
      have hne : a ≠ id := fun hh => ha (hh ▸ h)
      exact List.mem_filter.2 ⟨hmem, by simpa using hne⟩
  · rw [if_neg hlen] at h
    cases h

theorem forceCloseProjectSteps_of_ne (s : AppState) (id : String)
    (hne : ¬fcNewActive s id = s.activeProjectId) :
    forceCloseProjectSteps s id =
      [{ s with activeProjectId := none },
       fcLiveStep s id,
       { fcLiveStep s id with
           projects := mdel s.projects id,
           tabOrder := s.tabOrder.filter (fun t => !(t == id)),
           activeProjectId := fcNewActive s id }] := by
  simp only [forceCloseProjectSteps]
  rw [if_neg hne]

theorem forceCloseProject_of_ne (s : AppState) (id : String)
    (hne : ¬fcNewActive s id = s.activeProjectId) :
    forceCloseProject s id =
      { fcLiveStep s id with
          projects := mdel s.projects id,
          tabOrder := s.tabOrder.filter (fun t => !(t == id)),
          activeProjectId := fcNewActive s id } := by
  unfold forceCloseProject
  rw [forceCloseProjectSteps_of_ne s id hne]
  rfl

/-- C2: `forceCloseSession(id)` removes `id` from the registry and the
tab sequence (unconditionally).  On a well-formed state: when `id` was
active and tabs remain the new active session is the tab at
`min(originalTabIndex, newTabCount-1)` of the updated tab sequence (and
`null` when no tabs remain; the active id is untouched when `id` was not
active); and whenever the replacement differs from the outgoing active
id, the operation's state sequence first sets the active id to `null`,
then restores the replacement's snapshot into the live stores (clearing
them entirely when there is no replacement), and only then applies the
final state with the replacement active. -/
theorem forceCloseProject_spec (s : AppState) (id : String) :
    (forceCloseProject s id).projects = mdel s.projects id ∧
    (forceCloseProject s id).tabOrder = s.tabOrder.filter (fun t => !(t == id)) ∧
    mget (forceCloseProject s id).projects id = none ∧
    id ∉ (forceCloseProject s id).tabOrder ∧
    (WF s →
      (∀ k, s.activeProjectId = some id → idxOf? s.tabOrder id = some k →
         0 < (forceCloseProject s id).tabOrder.length →
         (forceCloseProject s id).activeProjectId =
           (forceCloseProject s id).tabOrder.get?
             (min k ((forceCloseProject s id).tabOrder.length - 1))) ∧
      (s.activeProjectId = some id → (forceCloseProject s id).tabOrder = [] →
         (forceCloseProject s id).activeProjectId = none) ∧
      (¬s.activeProjectId = some id →
         (forceCloseProject s id).activeProjectId = s.activeProjectId) ∧
      (¬(forceCloseProject s id).activeProjectId = s.activeProjectId →
         ∃ s2, forceCloseProjectSteps s id =
             [{ s with activeProjectId := none }, s2, forceCloseProject s id] ∧
           ((∃ r snap, (forceCloseProject s id).activeProjectId = some r ∧
               mget (mdel s.projects id) r = some snap ∧
               s2 = { s with activeProjectId := none,
                             live := restoreStateFromSnapshot snap s.live }) ∨
            ((forceCloseProject s id).activeProjectId = none ∧
             s2 = { s with activeProjectId := none, live := emptyLive })))) := by
  refine ⟨forceCloseProject_projects s id, forceCloseProject_tabOrder s id, ?_, ?_, ?_⟩
  · rw [forceCloseProject_projects, mget_mdel]
    simp
  · rw [forceCloseProject_tabOrder]
    intro hmem
    have h2 := (List.mem_filter.1 hmem).2
    simp at h2
  · rintro ⟨w1, w2, w3⟩
    refine ⟨?_, ?_, ?_, ?_⟩
    · intro k hact hidx hlen
      rw [forceCloseProject_tabOrder] at hlen
      rw [forceCloseProject_active, forceCloseProject_tabOrder]
      simp only [fcNewActive]
      rw [if_pos hlen, if_pos hact]
      unfold jsIndexOf
      rw [hidx]
      have hlen1 : 1 ≤ (s.tabOrder.filter (fun t => !(t == id))).length := hlen
      have hcast : (((s.tabOrder.filter (fun t => !(t == id))).length - 1 : Nat) : Int) =
          ((s.tabOrder.filter (fun t => !(t == id))).length : Int) - 1 :=
        Nat.cast_sub hlen1
      rw [← hcast, ← Nat.cast_min]
      exact jsGet_ofNat _ _
    · intro hact hempty
      rw [forceCloseProject_tabOrder] at hempty
      rw [forceCloseProject_active]
      simp only [fcNewActive]
      rw [hempty]
      simp
    · intro hact
      rw [forceCloseProject_active]
      simp only [fcNewActive]
      by_cases hlen : 0 < (s.tabOrder.filter (fun t => !(t == id))).length
      · rw [if_pos hlen, if_neg hact]
      · rw [if_neg hlen]
        cases hA : s.activeProjectId with
        | none => rfl
        | some a =>
            exfalso
            have hmem : a ∈ s.tabOrder := WF_active_mem s ⟨w1, w2, w3⟩ a hA
            have hne2 : a ≠ id := fun hh => hact (by rw [hA, hh])
            have hfmem : a ∈ s.tabOrder.filter (fun t => !(t == id)) :=
              List.mem_filter.2 ⟨hmem, by simpa using hne2⟩
            exact hlen (List.length_pos_of_mem hfmem)
    · intro hne
      rw [forceCloseProject_active] at hne
      refine ⟨fcLiveStep s id, ?_, ?_⟩
      · rw [forceCloseProjectSteps_of_ne s id hne, forceCloseProject_of_ne s id hne]
      · cases hna : fcNewActive s id with
        | none =>
            right
            refine ⟨by rw [forceCloseProject_active, hna], ?_⟩
            simp [fcLiveStep, hna, strTruthy]
        | some r =>
            left
            have hrmem : r ∈ s.tabOrder.filter (fun t => !(t == id)) :=
              fcNewActive_mem s id r
                (fun b hb => WF_active_mem s ⟨w1, w2, w3⟩ b hb) hna
            have hrtab : r ∈ s.tabOrder := (List.mem_filter.1 hrmem).1
            have hrne : r ≠ id := by simpa using (List.mem_filter.1 hrmem).2
            have hrne2 : r ≠ "" := w2 r hrtab
            obtain ⟨snap, hsnap⟩ := Option.isSome_iff_exists.1 (w1 r hrtab)
            have hd : mget (mdel s.projects id) r = some snap := by
              rw [mget_mdel, if_neg hrne]
              exact hsnap
            refine ⟨r, snap, by rw [forceCloseProject_active, hna], hd, ?_⟩
            simp [fcLiveStep, hna, strTruthy, hrne2, hd]

/-- Witness for C2 at a three-tab registry with the middle tab active. -/
theorem forceCloseProject_spec_witness :
    WF c2WitnessState ∧
    mget (forceCloseProject c2WitnessState "p2").projects "p2" = none ∧
    "p2" ∉ (forceCloseProject c2WitnessState "p2").tabOrder :=
  ⟨⟨by decide, by decide, by decide⟩, (forceCloseProject_spec c2WitnessState "p2").2.2.1,
    (forceCloseProject_spec c2WitnessState "p2").2.2.2.1⟩

/-! ## Claim C3: switchSession -/

/-- C3 counterexample: a genuine switch (target present and not active)
never passes through a `null` active session id — every intermediate
store state of `switchProject` has a non-null active id, contradicting
the claimed ordering "save, set active to null, restore, then set active
to id". -/
theorem switchProject_no_null_transient :
    ¬c3State.activeProjectId = some "p2" ∧
    (mget c3State.projects "p2").isSome = true ∧
    ¬switchProjectSteps 0 c3State "p2" = [] ∧
    ∀ t ∈ switchProjectSteps 0 c3State "p2", ¬t.activeProjectId = none := by
  refine ⟨by decide, by decide, by decide, by decide⟩

/-- C3 amended: `switchSession(id)` is a no-op when `id` is active or
absent; otherwise it first saves the outgoing session's live state into
its snapshot, then sets the active id directly to `id`, and only then
restores the target's snapshot (fetched at entry) into the live stores —
the active id never becomes `null` during the operation. -/
theorem switchProject_spec (now : Nat) (s : AppState) (id : String) :
    (s.activeProjectId = some id →
       switchProjectSteps now s id = [] ∧ switchProject now s id = s) ∧
    (mget s.projects id = none →
       switchProjectSteps now s id = [] ∧ switchProject now s id = s) ∧
    (∀ target, ¬s.activeProjectId = some id → mget s.projects id = some target →
       switchProjectSteps now s id =
         [saveCurrentProjectState now s,
          { saveCurrentProjectState now s with activeProjectId := some id },
          { saveCurrentProjectState now s with
              activeProjectId := some id,
              live := restoreStateFromSnapshot target (saveCurrentProjectState now s).live }] ∧
       switchProject now s id =
         { saveCurrentProjectState now s with
             activeProjectId := some id,
             live := restoreStateFromSnapshot target (saveCurrentProjectState now s).live } ∧
       (∀ t ∈ switchProjectSteps now s id,
          t.activeProjectId = s.activeProjectId ∨ t.activeProjectId = some id)) := by
  refine ⟨?_, ?_, ?_⟩
  · intro h
    constructor
    · simp [switchProjectSteps, h]
    · simp [switchProject, switchProjectSteps, h, lastD]
  · intro h
    by_cases ha : s.activeProjectId = some id
    · constructor
      · simp [switchProjectSteps, ha]
      · simp [switchProject, switchProjectSteps, ha, lastD]
    · constructor
      · simp [switchProjectSteps, ha, h]
      · simp [switchProject, switchProjectSteps, ha, h, lastD]
  · intro target h1 h2
    have hsteps : switchProjectSteps now s id =
        [saveCurrentProjectState now s,
         { saveCurrentProjectState now s with activeProjectId := some id },
         { saveCurrentProjectState now s with
             activeProjectId := some id,
             live := restoreStateFromSnapshot target (saveCurrentProjectState now s).live }] := by
      unfold switchProjectSteps
      rw [if_neg h1, h2]
    refine ⟨hsteps, ?_, ?_⟩
    · unfold switchProject
      rw [hsteps]
      rfl
    · intro t ht
      rw [hsteps] at ht
      simp only [List.mem_cons, List.not_mem_nil, or_false] at ht
      rcases ht with rfl | rfl | rfl
      · left
        exact save_active now s
      · right
        rfl
      · right
        rfl

/-- Witness for amended C3: switching from p1 to p2 in the two-tab
registry. -/
theorem switchProject_spec_witness :
    ¬c3State.activeProjectId = some "p2" ∧
    mget c3State.projects "p2" = some (createEmptySnapshot "p2" "Two" 1) ∧
    switchProject 0 c3State "p2" =
      { saveCurrentProjectState 0 c3State with
          activeProjectId := some "p2",
          live := restoreStateFromSnapshot (createEmptySnapshot "p2" "Two" 1)
                    (saveCurrentProjectState 0 c3State).live } :=
  ⟨by decide, by decide,
    ((switchProject_spec 0 c3State "p2").2.2 (createEmptySnapshot "p2" "Two" 1)
       (by decide) (by decide)).2.1⟩

/-! ## Claim C7: createSession -/

/-- C7: `createSession` (`createProject` with `fromDrop` false) with a
session currently active: the store states are, in order, (1) the flush
of live state into the outgoing session's snapshot, (2) the active id set
to `null`, (3) the live stores cleared to the empty state with the active
id still `null`, (4) the final state with a fresh empty Document Snapshot
inserted into the registry and the tab sequence and made active; in
particular, every state strictly between the flush and the activation has
a `null` active id. -/
theorem createProject_spec (id : String) (now : Nat) (name : Option String) (s : AppState)
    (aid : String) (hA : s.activeProjectId = some aid) (hNe : aid ≠ "") :
    createProjectSteps id now name false s =
      [saveCurrentProjectState now s,
       { saveCurrentProjectState now s with activeProjectId := none },
       { saveCurrentProjectState now s with activeProjectId := none, live := emptyLive },
       createProject id now name false s] ∧
    (∀ t ∈ ((createProjectSteps id now name false s).drop 1).take 2,
       t.activeProjectId = none) ∧
    (∀ cur, mget s.projects aid = some cur →
       mget (saveCurrentProjectState now s).projects aid =
         some (captureCurrentState aid cur.name now s.live)) ∧
    (createProject id now name false s).live = emptyLive ∧
    mget (createProject id now name false s).projects id =
      some (createEmptySnapshot id (jsOrStr name "Untitled") now) ∧
    (createProject id now name false s).tabOrder = s.tabOrder ++ [id] ∧
    (createProject id now name false s).activeProjectId = some id := by
  have hsteps : createProjectSteps id now name false s =
      [saveCurrentProjectState now s,
       { saveCurrentProjectState now s with activeProjectId := none },
       { saveCurrentProjectState now s with activeProjectId := none, live := emptyLive },
       { saveCurrentProjectState now s with
           projects := mset (saveCurrentProjectState now s).projects id
             (createEmptySnapshot id (jsOrStr name "Untitled") now),
           activeProjectId := some id,
           tabOrder := s.tabOrder ++ [id],
           live := emptyLive }] := by
    unfold createProjectSteps
    rw [if_save_collapse now s]
    rfl
  have hfin : createProject id now name false s =
      { saveCurrentProjectState now s with
          projects := mset (saveCurrentProjectState now s).projects id
            (createEmptySnapshot id (jsOrStr name "Untitled") now),
          activeProjectId := some id,
          tabOrder := s.tabOrder ++ [id],
          live := emptyLive } := by
    unfold createProject
    rw [hsteps]
    rfl
  refine ⟨?_, ?_, ?_, ?_, ?_, ?_, ?_⟩
  · rw [hfin]
    exact hsteps
  · intro t ht
    rw [hsteps] at ht
    simp only [List.drop, List.take, List.mem_cons, List.not_mem_nil, or_false] at ht
    rcases ht with rfl | rfl
    · rfl
    · rfl
  · intro cur hcur
    unfold saveCurrentProjectState
    rw [hA]
    simp only [hNe, if_false, hcur]
    exact mget_mset_self _ _ _
  · rw [hfin]
  · rw [hfin]
    exact mget_mset_self _ _ _
  · rw [hfin]
  · rw [hfin]

/-- Witness for C7: creating a fresh project while p1 is active. -/
theorem createProject_spec_witness :
    c3State.activeProjectId = some "p1" ∧ "p1" ≠ "" ∧
    (createProject "p9" 5 none false c3State).live = emptyLive ∧
    (createProject "p9" 5 none false c3State).activeProjectId = some "p9" := by
  have h := createProject_spec "p9" 5 none c3State "p1" (by decide) (by decide)
  exact ⟨by decide, by decide, h.2.2.2.1, h.2.2.2.2.2.2⟩

/-! ## Claim C8: findSessionByPath -/

theorem findInProjects_sound (l : List (String × ProjectSnapshot)) (np pid : String)
    (h : findInProjects l np = some pid) :
    ∃ pr, (pid, pr) ∈ l ∧ ∃ ip, pr.imagePath = some ip ∧ ip ≠ "" ∧ normalizePath ip = np := by
  induction l with
  | nil => cases h
  | cons hd rest ih =>
      obtain ⟨qid, pr⟩ := hd
      unfold findInProjects at h
      cases hip : pr.imagePath with
      | none =>
          rw [hip] at h
          obtain ⟨pr2, hmem, hrest⟩ := ih h
          exact ⟨pr2, List.mem_cons_of_mem _ hmem, hrest⟩
      | some ip =>
          rw [hip] at h
          have h2 : (if ip ≠ "" ∧ normalizePath ip = np then some qid
              else findInProjects rest np) = some pid := h
          by_cases hc : ip ≠ "" ∧ normalizePath ip = np
          · rw [if_pos hc] at h2
            cases h2
            exact ⟨pr, List.mem_cons_self _ _, ip, hip, hc.1, hc.2⟩
          · rw [if_neg hc] at h2
            obtain ⟨pr2, hmem, hrest⟩ := ih h2
            exact ⟨pr2, List.mem_cons_of_mem _ hmem, hrest⟩

theorem findInProjects_none (l : List (String × ProjectSnapshot)) (np : String)
    (h : findInProjects l np = none) :
    ∀ pid pr, (pid, pr) ∈ l → ∀ ip, pr.imagePath = some ip → ip ≠ "" →
      normalizePath ip ≠ np := by
  induction l with
  | nil => intro pid pr hmem; cases hmem
  | cons hd rest ih =>
      obtain ⟨qid, qpr⟩ := hd
      unfold findInProjects at h
      intro pid pr hmem ip hip hne heq
      cases hqip : qpr.imagePath with
      | none =>
          rw [hqip] at h
          rcases List.mem_cons.1 hmem with hhd | htl
          · cases hhd
            rw [hqip] at hip
            cases hip
          · exact ih h pid pr htl ip hip hne heq
      | some qip =>
          rw [hqip] at h
          have h2 : (if qip ≠ "" ∧ normalizePath qip = np then some qid
              else findInProjects rest np) = none := h
          by_cases hc : qip ≠ "" ∧ normalizePath qip = np
          · rw [if_pos hc] at h2
            cases h2
          · rw [if_neg hc] at h2
            rcases List.mem_cons.1 hmem with hhd | htl
            · cases hhd
              rw [hqip] at hip
              cases hip
              exact hc ⟨hne, heq⟩
            · exact ih h2 pid pr htl ip hip hne heq

/-- C8: `findSessionByPath(path)` compares paths case-insensitively after
normalizing backslashes to forward slashes; it checks the live active
session's current path first and then all stored snapshots; it returns
the owning session id when some path matches (the active id when the live
path matches) and `null` exactly when no path matches. -/
theorem findProjectByPath_spec (s : AppState) (path : String) :
    (∀ pid, findProjectByPath s path = some pid →
       (s.activeProjectId = some pid ∧ pid ≠ "" ∧
          ∃ cur, s.live.imagePath = some cur ∧ cur ≠ "" ∧
            normalizePath cur = normalizePath path) ∨
       (∃ pr, (pid, pr) ∈ s.projects ∧
          ∃ ip, pr.imagePath = some ip ∧ ip ≠ "" ∧
            normalizePath ip = normalizePath path)) ∧
    (∀ aid cur, s.activeProjectId = some aid → aid ≠ "" → s.live.imagePath = some cur →
       cur ≠ "" → normalizePath cur = normalizePath path →
       findProjectByPath s path = some aid) ∧
    (findProjectByPath s path = none →
       (∀ aid cur, s.activeProjectId = some aid → aid ≠ "" → s.live.imagePath = some cur →
          cur ≠ "" → normalizePath cur ≠ normalizePath path) ∧
       (∀ pid pr, (pid, pr) ∈ s.projects → ∀ ip, pr.imagePath = some ip → ip ≠ "" →
          normalizePath ip ≠ normalizePath path)) := by
  refine ⟨?_, ?_, ?_⟩
  · intro pid h
    unfold findProjectByPath at h
    cases hA : s.activeProjectId with
    | none =>
        rw [hA] at h
        exact Or.inr (findInProjects_sound _ _ _ h)
    | some aid =>
        rw [hA] at h
        dsimp only at h
        by_cases hae : aid = ""
        · rw [if_pos hae] at h
          exact Or.inr (findInProjects_sound _ _ _ h)
        · rw [if_neg hae] at h
          cases hL : s.live.imagePath with
          | none =>
              rw [hL] at h
              exact Or.inr (findInProjects_sound _ _ _ h)
          | some cur =>
              rw [hL] at h
              dsimp only at h
              by_cases hce : cur = ""
              · rw [if_pos hce] at h
                exact Or.inr (findInProjects_sound _ _ _ h)
              · rw [if_neg hce] at h
                by_cases hm : normalizePath cur = normalizePath path
                · rw [if_pos hm] at h
                  cases h
                  exact Or.inl ⟨rfl, hae, cur, rfl, hce, hm⟩
                · rw [if_neg hm] at h
                  exact Or.inr (findInProjects_sound _ _ _ h)
  · intro aid cur hA hae hL hce hm
    unfold findProjectByPath
    rw [hA]
    dsimp only
    rw [if_neg hae, hL]
    dsimp only
    rw [if_neg hce, if_pos hm]
  · intro h
    constructor
    · intro aid cur hA hae hL hce hm
      unfold findProjectByPath at h
      rw [hA] at h
      dsimp only at h
      rw [if_neg hae, hL] at h
      dsimp only at h
      rw [if_neg hce, if_pos hm] at h
      cases h
    · intro pid pr hmem ip hip hne
      unfold findProjectByPath at h
      cases hA : s.activeProjectId with
      | none =>
          rw [hA] at h
          exact findInProjects_none _ _ h pid pr hmem ip hip hne
      | some aid =>
          rw [hA] at h
          dsimp only at h
          by_cases hae : aid = ""
          · rw [if_pos hae] at h
            exact findInProjects_none _ _ h pid pr hmem ip hip hne
          · rw [if_neg hae] at h
            cases hL : s.live.imagePath with
            | none =>
                rw [hL] at h
                exact findInProjects_none _ _ h pid pr hmem ip hip hne
            | some cur =>
                rw [hL] at h
                dsimp only at h
                by_cases hce : cur = ""
                · rw [if_pos hce] at h
                  exact findInProjects_none _ _ h pid pr hmem ip hip hne
                · rw [if_neg hce] at h
                  by_cases hm : normalizePath cur = normalizePath path
                  · rw [if_pos hm] at h
                    cases h
                  · rw [if_neg hm] at h
                    exact findInProjects_none _ _ h pid pr hmem ip hip hne

/-- Witness for C8: the live path `C:\Img\A.PNG` matches the query
`c:/IMG/a.png` after normalization and wins over the stored scan. -/
theorem findProjectByPath_spec_witness :
    c8State.activeProjectId = some "p1" ∧
    c8State.live.imagePath = some "C:\\Img\\A.PNG" ∧
    normalizePath "C:\\Img\\A.PNG" = normalizePath "c:/IMG/a.png" ∧
    findProjectByPath c8State "c:/IMG/a.png" = some "p1" :=
  ⟨by decide, by decide, by decide,
    (findProjectByPath_spec c8State "c:/IMG/a.png").2.1 "p1" "C:\\Img\\A.PNG"
      (by decide) (by decide) (by decide) (by decide) (by decide)⟩

/-! ## Claim C9: layer ordering invariant -/

theorem renumberFrom_length (i : Nat) (ls : List Layer) :
    (renumberFrom i ls).length = ls.length := by
  induction ls generalizing i with
  | nil => rfl
  | cons x xs ih => simp [renumberFrom, ih]

theorem renumberFrom_orders (i : Nat) (ls : List Layer) :
    (renumberFrom i ls).map (fun l => l.order) = List.range' i ls.length := by
  induction ls generalizing i with
  | nil => rfl
  | cons x xs ih => simp [renumberFrom, ih, List.range'_succ]

theorem map_shift_below (k s m : Nat) (h : s + m ≤ k) :
    (List.range' s m).map (fun o => if k < o then o - 1 else o) = List.range' s m := by
  induction m generalizing s with
  | zero => rfl
  | succ m ih =>
      rw [List.range'_succ, List.map_cons, if_neg (by omega), ih (s + 1) (by omega),
        ← List.range'_succ]

theorem map_shift_above (k s m : Nat) (h : k < s) :
    (List.range' s m).map (fun o => if k < o then o - 1 else o) = List.range' (s - 1) m := by
  induction m generalizing s with
  | zero => rfl
  | succ m ih =>
      rw [List.range'_succ, List.map_cons, if_pos h, ih (s + 1) (by omega),
        List.range'_succ]
      have harith : s + 1 - 1 = s - 1 + 1 := by omega
      rw [harith]

theorem order_shift (k : Nat) (x : Layer) :
    (if k < x.order then { x with order := x.order - 1 } else x).order =
      (fun o => if k < o then o - 1 else o) x.order := by
  by_cases hx : k < x.order <;> simp [hx]

theorem map_order_shift (k : Nat) (xs : List Layer) :
    ((shiftOrdersAfter k xs).map (fun l => l.order)) =
      (xs.map (fun l => l.order)).map (fun o => if k < o then o - 1 else o) := by
  induction xs with
  | nil => rfl
  | cons x xs ih =>
      simp only [shiftOrdersAfter, List.map_cons] at ih ⊢
      rw [ih]
      congr 1
      exact order_shift k x

theorem removeFirst_decomp (ls : List Layer) (id : String) (l : Layer)
    (h : findById ls id = some l) :
    ∃ l1 l2, ls = l1 ++ l :: l2 ∧ removeFirstById ls id = l1 ++ l2 := by
  induction ls with
  | nil => cases h
  | cons x xs ih =>
      unfold findById at h
      by_cases hx : x.id = id
      · rw [if_pos hx] at h
        injection h with hxl
        subst hxl
        refine ⟨[], xs, rfl, ?_⟩
        unfold removeFirstById
        rw [if_pos hx]
        rfl
      · rw [if_neg hx] at h
        obtain ⟨l1, l2, he, hr⟩ := ih h
        refine ⟨x :: l1, l2, by rw [he]; rfl, ?_⟩
        unfold removeFirstById
        rw [if_neg hx, hr]
        rfl

theorem ordersAligned_applyLayerOp (m : LayerModel) (op : LayerOp)
    (h : m.layers.map (fun l => l.order) = List.range m.layers.length) :
    (applyLayerOp m op).layers.map (fun l => l.order) =
      List.range (applyLayerOp m op).layers.length := by
  cases op with
  | add id name ltype imageData visible opacity =>
      show ((m.layers ++ [_]).map _) = List.range (m.layers ++ [_]).length
      rw [List.map_append, h, List.length_append, List.length_singleton, List.range_succ]
      rfl
  | remove id =>
      show (removeLayer m id).layers.map _ = List.range (removeLayer m id).layers.length
      unfold removeLayer
      cases hf : findById m.layers id with
      | none => exact h
      | some l =>
          dsimp only
          by_cases hb : l.type = LayerType.base
          · rw [if_pos hb]
            exact h
          · rw [if_neg hb]
            obtain ⟨l1, l2, hsplit, hrem⟩ := removeFirst_decomp m.layers id l hf
            have hm := h
            rw [hsplit, List.map_append, List.length_append] at hm
            simp only [List.map_cons, List.length_cons] at hm
            have hrange : List.range (l1.length + (l2.length + 1)) =
                List.range' 0 l1.length ++
                  (l1.length :: List.range' (l1.length + 1) l2.length) := by
              rw [List.range_eq_range']
              have happ := List.range'_append_1 0 l1.length (l2.length + 1)
              rw [Nat.zero_add] at happ
              rw [Nat.add_comm l1.length (l2.length + 1), ← happ, List.range'_succ]
            rw [hrange] at hm
            obtain ⟨h1, h2⟩ := List.append_inj hm (by simp)
            injection h2 with hlo h2'
            rw [hrem]
            rw [map_order_shift, List.map_append, List.map_append, h1, h2', hlo]
            rw [map_shift_below l1.length 0 l1.length (by omega),
              map_shift_above l1.length (l1.length + 1) l2.length (by omega)]
            have harith : l1.length + 1 - 1 = l1.length := rfl
            rw [harith]
            have happ2 := List.range'_append_1 0 l1.length l2.length
            rw [Nat.zero_add] at happ2
            rw [happ2, ← List.range_eq_range']
            congr 1
            simp [shiftOrdersAfter]
            omega
  | reorder fromIndex toIndex =>
      show (applyLayerOp m (.reorder fromIndex toIndex)).layers.map _ =
        List.range (applyLayerOp m (.reorder fromIndex toIndex)).layers.length
      unfold applyLayerOp reorderLayers
      dsimp only
      by_cases hc : fromIndex < m.layers.length ∧ toIndex < m.layers.length
      · rw [dif_pos hc]
        dsimp only
        rw [renumberFrom_orders, ← List.range_eq_range', renumberFrom_length]
      · rw [dif_neg hc]
        exact h

theorem layerOrders_foldl (ops : List LayerOp) :
    ∀ m, m.layers.map (fun l => l.order) = List.range m.layers.length →
      (ops.foldl applyLayerOp m).layers.map (fun l => l.order) =
        List.range (ops.foldl applyLayerOp m).layers.length := by
  induction ops with
  | nil => intro m h; exact h
  | cons op rest ih => intro m h; exact ih _ (ordersAligned_applyLayerOp m op h)

theorem layerOrders_runOps (ops : List LayerOp) :
    (runLayerOps ops).layers.map (fun l => l.order) =
      List.range (runLayerOps ops).layers.length :=
  layerOrders_foldl ops emptyLayerModel rfl

/-- C9: `reorderLayers(0, 2)` on the 3-layer stack `[A,B,C]` with orders
`0,1,2` yields the arrangement `[B,C,A]` with orders `0,1,2`; and after
any sequence of `addLayer`/`removeLayer`/`reorderLayers` the set of
`order` values is exactly `{0, ..., count-1}` with no duplicates. -/
theorem reorderLayers_spec :
    (∃ m2, reorderLayers c9Model 0 2 = Except.ok m2 ∧
       m2.layers.map (fun l => l.name) = ["Layer 2", "Layer 3", "Layer 1"] ∧
       m2.layers.map (fun l => l.order) = [0, 1, 2]) ∧
    ∀ ops : List LayerOp,
      ((runLayerOps ops).layers.map (fun l => l.order)).toFinset =
        Finset.range (runLayerOps ops).layers.length ∧
      ((runLayerOps ops).layers.map (fun l => l.order)).Nodup := by
  constructor
  · exact ⟨_, rfl, by decide, by decide⟩
  · intro ops
    have h := layerOrders_runOps ops
    rw [h]
    constructor
    · ext x
      simp
    · exact List.nodup_range _

/-! ## Claim C4: derived-image transforms and cache update -/

/-- C4 counterexample.  First conjunct: a creation step with
`featherRadius = 5 > 0` whose feathering transform fails
(`featherResult = none`) still creates the object from the raw
`imageData` and writes the cache entry `5`.  Second/third conjuncts spell
out that the transform produced nothing and the fallback was used.
Fourth conjunct: on the next pass the entry matches, so nothing is
retried.  Fifth conjunct: a re-creation (object missing) with a matching
cache entry skips the transform entirely even though `featherRadius > 0`
and a transform result is available. -/
theorem processLayerCreate_counterexample :
    processLayerCreate c4Layer false none none none (some ⟨10, 10⟩) =
      { invoked := TransformInvoked.feather, usedImage := "raw", created := true,
        cacheAfter := some 5 } ∧
    0 < pcCurrentFeather c4Layer ∧
    c4Layer.imageData = "raw" ∧
    processLayerCreate c4Layer true (some 5) none none (some ⟨10, 10⟩) =
      { invoked := TransformInvoked.noTransform, usedImage := "raw", created := false,
        cacheAfter := some 5 } ∧
    processLayerCreate c4Layer false (some 5) (some "feathered") none (some ⟨10, 10⟩) =
      { invoked := TransformInvoked.noTransform, usedImage := "raw", created := true,
        cacheAfter := some 5 } := by
  refine ⟨by decide, by decide, by decide, by decide, by decide⟩

theorem pcDecide_feather_iff (layer : Layer) (cached : Option Nat)
    (featherResult sharpResult : Option String) :
    (pcDecide layer cached featherResult sharpResult).1 = TransformInvoked.feather ↔
      pcNeedsApply layer cached = true ∧ 0 < pcCurrentFeather layer := by
  by_cases hna : pcNeedsApply layer cached = true
  · by_cases hf : 0 < pcCurrentFeather layer
    · cases featherResult with
      | none => simp [pcDecide, hna, hf]
      | some f => by_cases hfe : f == "" <;> simp [pcDecide, hna, hf, hfe]
    · by_cases hp : 3 ≤ (layer.polygonPoints.getD []).length
      · cases sharpResult with
        | none => simp [pcDecide, hna, hf, hp]
        | some f => by_cases hfe : f == "" <;> simp [pcDecide, hna, hf, hp, hfe]
      · by_cases ho : strTruthy layer.originalImageData = true <;>
          simp [pcDecide, hna, hf, hp, ho]
  · simp [pcDecide, hna]

theorem pcDecide_sharp_iff (layer : Layer) (cached : Option Nat)
    (featherResult sharpResult : Option String) :
    (pcDecide layer cached featherResult sharpResult).1 = TransformInvoked.sharpMask ↔
      pcNeedsApply layer cached = true ∧ ¬0 < pcCurrentFeather layer ∧
        3 ≤ (layer.polygonPoints.getD []).length := by
  by_cases hna : pcNeedsApply layer cached = true
  · by_cases hf : 0 < pcCurrentFeather layer
    · cases featherResult with
      | none => simp [pcDecide, hna, hf]
      | some f => by_cases hfe : f == "" <;> simp [pcDecide, hna, hf, hfe]
    · by_cases hp : 3 ≤ (layer.polygonPoints.getD []).length
      · cases sharpResult with
        | none => simp [pcDecide, hna, hf, hp]
        | some f => by_cases hfe : f == "" <;> simp [pcDecide, hna, hf, hp, hfe]
      · by_cases ho : strTruthy layer.originalImageData = true <;>
          simp [pcDecide, hna, hf, hp, ho]
  · simp [pcDecide, hna]

theorem pcDecide_feather_image (layer : Layer) (cached : Option Nat)
    (featherResult sharpResult : Option String)
    (hna : pcNeedsApply layer cached = true) (hf : 0 < pcCurrentFeather layer) :
    (∀ f, featherResult = some f → ¬f = "" →
       (pcDecide layer cached featherResult sharpResult).2 = f) ∧
    (featherResult = none →
       (pcDecide layer cached featherResult sharpResult).2 = layer.imageData) := by
  constructor
  · intro f hfr hfe
    subst hfr
    have hbe : (f == "") = false := by
      simp [hfe]
    simp [pcDecide, hna, hf, hbe]
  · intro hfr
    subst hfr
    simp [pcDecide, hna, hf]

theorem pcDecide_sharp_image (layer : Layer) (cached : Option Nat)
    (featherResult sharpResult : Option String)
    (hna : pcNeedsApply layer cached = true) (hf : ¬0 < pcCurrentFeather layer)
    (hp : 3 ≤ (layer.polygonPoints.getD []).length) :
    (∀ f, sharpResult = some f → ¬f = "" →
       (pcDecide layer cached featherResult sharpResult).2 = f) ∧
    (sharpResult = none →
       (pcDecide layer cached featherResult sharpResult).2 = layer.imageData) := by
  constructor
  · intro f hfr hfe
    subst hfr
    have hbe : (f == "") = false := by
      simp [hfe]
    simp [pcDecide, hna, hf, hp, hbe]
  · intro hfr
    subst hfr
    simp [pcDecide, hna, hf, hp]

theorem pcDecide_verbatim (layer : Layer) (cached : Option Nat)
    (featherResult sharpResult : Option String)
    (hna : pcNeedsApply layer cached = true) (hf : ¬0 < pcCurrentFeather layer)
    (hp : ¬3 ≤ (layer.polygonPoints.getD []).length) :
    (pcDecide layer cached featherResult sharpResult).2 =
      layer.originalImageData.getD layer.imageData := by
  have ho : strTruthy layer.originalImageData = true := by
    have h2 := hna
    unfold pcNeedsApply at h2
    rw [Bool.and_eq_true] at h2
    exact h2.1
  simp [pcDecide, hna, hf, hp, ho]

theorem pcDecide_noApply (layer : Layer) (cached : Option Nat)
    (featherResult sharpResult : Option String)
    (hna : ¬pcNeedsApply layer cached = true) :
    (pcDecide layer cached featherResult sharpResult).2 = layer.imageData := by
  simp [pcDecide, hna]

/-- C4 amended: on a creation step (object missing or cached feather
differing), the transform is selected only when `originalImageData` is
JS-truthy and the cache entry is absent or differs: feathering when
`featherRadius > 0`, the sharp mask when polygonPoints has at least 3
points, otherwise `originalImageData` verbatim; a transform returning no
(or an empty) result falls back to the layer's current `imageData`; and
the cache entry is set to the current featherRadius exactly when the
scene object is successfully created (valid load), regardless of
transform success — so a failed transform is not retried once the object
is created, and the cache is left untouched when the object load itself
fails. -/
theorem processLayerCreate_spec (layer : Layer) (objPresent : Bool) (cached : Option Nat)
    (featherResult sharpResult : Option String) (loadResult : Option ImgDim)
    (hRe : objPresent = false ∨ pcFeatherChanged layer cached = true) :
    ((processLayerCreate layer objPresent cached featherResult sharpResult loadResult).invoked =
        TransformInvoked.feather ↔
      pcNeedsApply layer cached = true ∧ 0 < pcCurrentFeather layer) ∧
    ((processLayerCreate layer objPresent cached featherResult sharpResult loadResult).invoked =
        TransformInvoked.sharpMask ↔
      pcNeedsApply layer cached = true ∧ ¬0 < pcCurrentFeather layer ∧
        3 ≤ (layer.polygonPoints.getD []).length) ∧
    (processLayerCreate layer objPresent cached featherResult sharpResult loadResult).usedImage =
      (pcDecide layer cached featherResult sharpResult).2 ∧
    ((processLayerCreate layer objPresent cached featherResult sharpResult loadResult).created =
        true ↔
      ∃ dim, loadResult = some dim ∧ ¬dim.width = 0 ∧ ¬dim.height = 0) ∧
    ((processLayerCreate layer objPresent cached featherResult sharpResult loadResult).created =
        true →
      (processLayerCreate layer objPresent cached featherResult sharpResult loadResult).cacheAfter =
        some (pcCurrentFeather layer)) ∧
    ((processLayerCreate layer objPresent cached featherResult sharpResult loadResult).created =
        false →
      (processLayerCreate layer objPresent cached featherResult sharpResult loadResult).cacheAfter =
        cached) := by
  have hcond : (!objPresent || pcFeatherChanged layer cached) = true := by
    rcases hRe with h | h
    · rw [h]
      rfl
    · rw [h]
      simp
  unfold processLayerCreate
  rw [if_pos hcond]
  cases loadResult with
  | none =>
      refine ⟨?_, ?_, rfl, ?_, ?_, ?_⟩
      · simpa using pcDecide_feather_iff layer cached featherResult sharpResult
      · simpa using pcDecide_sharp_iff layer cached featherResult sharpResult
      · constructor
        · intro hcr
          cases hcr
        · rintro ⟨dim, hdim, _⟩
          cases hdim
      · intro hcr
        cases hcr
      · intro _
        rfl
  | some dim =>
      dsimp only
      by_cases hv : dim.width = 0 || dim.height = 0
      · rw [if_pos hv]
        refine ⟨?_, ?_, rfl, ?_, ?_, ?_⟩
        · simpa using pcDecide_feather_iff layer cached featherResult sharpResult
        · simpa using pcDecide_sharp_iff layer cached featherResult sharpResult
        · constructor
          · intro hcr
            cases hcr
          · rintro ⟨dim2, hdim, hw, hh⟩
            cases hdim
            rw [Bool.or_eq_true] at hv
            rcases hv with h0 | h0
            · exact absurd (by simpa using h0) hw
            · exact absurd (by simpa using h0) hh
        · intro hcr
          cases hcr
        · intro _
          rfl
      · rw [if_neg hv]
        have hw : ¬dim.width = 0 := by
          intro h0
          exact hv (by simp [h0])
        have hh : ¬dim.height = 0 := by
          intro h0
          exact hv (by simp [h0])
        refine ⟨?_, ?_, rfl, ?_, ?_, ?_⟩
        · simpa using pcDecide_feather_iff layer cached featherResult sharpResult
        · simpa using pcDecide_sharp_iff layer cached featherResult sharpResult
        · exact ⟨fun _ => ⟨dim, rfl, hw, hh⟩, fun _ => rfl⟩
        · intro _
          rfl
        · intro hcr
          cases hcr

/-- Witness for amended C4: a fresh creation with `featherRadius = 5`
invokes the feathering transform. -/
theorem processLayerCreate_spec_witness :
    (false = false ∨ pcFeatherChanged c4Layer none = true) ∧
    (processLayerCreate c4Layer false none (some "feathered") none (some ⟨10, 10⟩)).invoked =
      TransformInvoked.feather := by
  have h := processLayerCreate_spec c4Layer false none (some "feathered") none
    (some ⟨10, 10⟩) (Or.inl rfl)
  exact ⟨Or.inl rfl, h.1.2 ⟨by decide, by decide⟩⟩

/-! ## Claim C5: reconciliation re-entrancy and processing-state guard -/

theorem runPassWrites_complete (captured : Nat) (versionAt : Nat → Nat) :
    ∀ (layers : List Layer) (i : Nat),
      (∀ j, j < layers.length → versionAt (i + j) = captured) →
      runPassWrites captured versionAt layers i =
        ((layers.filter (fun l => !(l.type == LayerType.base))).map (fun l => l.id), true) := by
  intro layers
  induction layers with
  | nil => intro i h; rfl
  | cons l ls ih =>
      intro i h
      have hv : versionAt i = captured := by
        have h0 := h 0 (by simp)
        simpa using h0
      unfold runPassWrites
      rw [if_neg (not_not_intro hv)]
      have hrest := ih (i + 1) (fun j hj => by
        have hj2 := h (j + 1) (by simpa using Nat.succ_lt_succ hj)
        rwa [show i + (j + 1) = i + 1 + j by omega] at hj2)
      rw [hrest]
      by_cases hb : l.type = LayerType.base
      · simp [hb, List.filter_cons]
      · simp [hb, List.filter_cons]

theorem runPassWrites_abort (captured : Nat) (versionAt : Nat → Nat) :
    ∀ (layers : List Layer) (i k : Nat), k < layers.length →
      (∀ j, j < k → versionAt (i + j) = captured) →
      versionAt (i + k) ≠ captured →
      runPassWrites captured versionAt layers i =
        (((layers.take k).filter (fun l => !(l.type == LayerType.base))).map (fun l => l.id),
         false) := by
  intro layers
  induction layers with
  | nil =>
      intro i k hk
      exact absurd hk (by simp)
  | cons l ls ih =>
      intro i k hk hpre habort
      cases k with
      | zero =>
          have hv : versionAt i ≠ captured := by simpa using habort
          unfold runPassWrites
          rw [if_pos hv]
          simp
      | succ k2 =>
          have hv : versionAt i = captured := by
            have h0 := hpre 0 (by omega)
            simpa using h0
          unfold runPassWrites
          rw [if_neg (not_not_intro hv)]
          have hk2 : k2 < ls.length := by
            simp only [List.length_cons] at hk
            omega
          have hrest := ih (i + 1) k2 hk2
            (fun j hj => by
              have hj2 := hpre (j + 1) (by omega)
              rwa [show i + (j + 1) = i + 1 + j by omega] at hj2)
            (by
              have ha2 := habort
              rwa [show i + (k2 + 1) = i + 1 + k2 by omega] at ha2)
          rw [hrest]
          by_cases hb : l.type = LayerType.base
          · simp [hb, List.filter_cons]
          · simp [hb, List.filter_cons]

/-- C5: every reconciliation pass captures a freshly incremented version
counter (so captured versions strictly increase over successive passes);
the in-progress loop checks the counter before each layer and, as soon as
the global version differs from its captured version, returns with no
further writes in that pass (neither the remaining layers nor the
post-loop writes, completion flag false); the loop completes with all
non-base-layer writes exactly when the version is intact at every check;
and when the base image (or any other guard input) is not ready the
effect returns with no state change and no pass started — deferral, not
an error. -/
theorem reconciliation_guard_spec :
    (∀ s : SyncState, s.baseImageReady = false → effectStart s = (s, none)) ∧
    (∀ s : SyncState, effectGuardOk s = true →
       effectStart s =
         ({ s with processingVersion := s.processingVersion + 1 },
          some (s.processingVersion + 1)) ∧
       s.processingVersion < (effectStart s).1.processingVersion) ∧
    (∀ (captured : Nat) (versionAt : Nat → Nat) (layers : List Layer) (i : Nat),
       (∀ j, j < layers.length → versionAt (i + j) = captured) →
       runPassWrites captured versionAt layers i =
         ((layers.filter (fun l => !(l.type == LayerType.base))).map (fun l => l.id), true)) ∧
    (∀ (captured : Nat) (versionAt : Nat → Nat) (layers : List Layer) (i k : Nat),
       k < layers.length →
       (∀ j, j < k → versionAt (i + j) = captured) →
       versionAt (i + k) ≠ captured →
       runPassWrites captured versionAt layers i =
         (((layers.take k).filter (fun l => !(l.type == LayerType.base))).map (fun l => l.id),
          false)) := by
  refine ⟨?_, ?_, runPassWrites_complete, runPassWrites_abort⟩
  · intro s h
    simp [effectStart, effectGuardOk, h]
  · intro s h
    constructor
    · simp [effectStart, h]
    · simp [effectStart, h]

/-- Witness for C5: with the base image not ready the effect defers; and
a pass whose version is overtaken after the first layer check writes only
the first layer and never completes. -/
theorem reconciliation_guard_spec_witness :
    c5Sync.baseImageReady = false ∧
    effectStart c5Sync = (c5Sync, none) ∧
    runPassWrites 7 c5VersionAt [c5LayerA, c5LayerB] 0 =
      (((([c5LayerA, c5LayerB].take 1).filter
          (fun l => !(l.type == LayerType.base))).map (fun l => l.id)), false) := by
  refine ⟨by decide, reconciliation_guard_spec.1 c5Sync (by decide), ?_⟩
  exact reconciliation_guard_spec.2.2.2 7 c5VersionAt [c5LayerA, c5LayerB] 0 1
    (by decide) (by decide) (by decide)

end BananaSlice
